import Mathlib

/-!
# Verification of the NUT UPS polling core (se.nut)

Shallow embedding of the two source files:

* `src/lib/Utils.js` — `blank` / `filled` and the pure translator
  `parseUPSStatus` from a raw telemetry map to a structured status.
* `src/drivers/ups/device.js` — the capability reconciler
  `setCapabilities`, the per-capability writer `updateValue`, and the
  poll tick `getDeviceData`.

JavaScript values that flow through this code are modelled by `JSVal`
(`undefined`, `null`, strings, finite numbers as rationals, `NaN`,
signed `Infinity`, booleans).  JS objects whose entries matter for
iteration order are modelled as ordered association lists.
-/

namespace SeNut

/-- A JavaScript scalar value as it occurs in this program. Finite numbers
are modelled as rationals; `NaN` and signed `Infinity` are separate
constructors so that `parseInt`/`parseFloat` failure is observable. -/
inductive JSVal where
  | undefined
  | null
  | str (s : String)
  | num (q : Rat)
  | nan
  | inf (neg : Bool)
  | bool (b : Bool)
  deriving DecidableEq, Repr

/-- A value stored under one key of `result.values`: either a scalar or a
nested object (the `measure_voltage` composite), kept as an ordered list
of (sub-key, value) entries like a JS object literal. -/
inductive FieldVal where
  | scalar (v : JSVal)
  | comp (subs : List (String × JSVal))
  deriving DecidableEq, Repr

/-- JS whitespace (`\s` of the regex / `trim`), restricted to the ASCII
whitespace characters plus NBSP that can occur in this program's data. -/
def isWS (c : Char) : Bool :=
  c == ' ' || c == '\t' || c == '\n' || c == '\r' ||
  c == '\x0b' || c == '\x0c' || c == ' '

/-- `Utils.blank` on a scalar: `undefined` and `null` are blank, a string
is blank iff it trims to empty (i.e. every character is whitespace),
booleans and numbers (including `NaN`/`Infinity`, of JS type `number`)
are never blank. -/
def blankVal : JSVal → Bool
  | .undefined => true
  | .null => true
  | .str s => s.data.all isWS
  | .num _ => false
  | .nan => false
  | .inf _ => false
  | .bool _ => false

/-- `Utils.filled` on a scalar. -/
def filledV (v : JSVal) : Bool := !blankVal v

/-- `Utils.blank` on a field value: a nested object is blank iff it has no
keys (`Object.keys(value).length === 0`). -/
def blankFV : FieldVal → Bool
  | .scalar v => blankVal v
  | .comp subs => subs.isEmpty

/-- `Utils.filled` on a field value. -/
def filledFV (v : FieldVal) : Bool := !blankFV v

/-- Reading `body[key]` on the raw telemetry object: the stored string, or
`undefined` when the key is absent. -/
def jget (body : List (String × String)) (k : String) : JSVal :=
  match body.lookup k with
  | some s => .str s
  | none => .undefined

/-- Digit run to a natural number (base 10). -/
def digitsToNat (ds : List Char) : Nat :=
  ds.foldl (fun a c => a * 10 + (c.toNat - 48)) 0

/-- `parseInt(s, 10)`: skip leading whitespace, optional sign, then the
longest prefix of decimal digits; `none` models the `NaN` result when no
digit is found. -/
def jsParseInt (s : String) : Option Int :=
  let cs := s.data.dropWhile isWS
  match cs with
  | '-' :: r =>
      let ds := r.takeWhile Char.isDigit
      if ds.isEmpty then none else some (-(digitsToNat ds : Int))
  | '+' :: r =>
      let ds := r.takeWhile Char.isDigit
      if ds.isEmpty then none else some (digitsToNat ds)
  | r =>
      let ds := r.takeWhile Char.isDigit
      if ds.isEmpty then none else some (digitsToNat ds)

/-- Assemble a finite float result of `parseFloat` from its parts:
sign, integer part, fractional digits (with their count), exponent sign
and exponent. -/
def floatOfParts (neg : Bool) (ip fp fplen : Nat) (esign : Bool) (e : Nat) : Rat :=
  let base : Rat := (ip : Rat) + mkRat fp (10 ^ fplen)
  let scaled : Rat := if esign then base / ((10 : Rat) ^ e) else base * ((10 : Rat) ^ e)
  if neg then -scaled else scaled

/-- `parseFloat(s)`: skip leading whitespace, optional sign, `Infinity`
or a decimal literal `digits[.digits][(e|E)[sign]digits]`, taking the
longest valid prefix; `none` models the `NaN` result. -/
def jsParseFloat (s : String) : Option JSVal :=
  let cs1 := s.data.dropWhile isWS
  let sign : Bool × List Char :=
    match cs1 with
    | '-' :: r => (true, r)
    | '+' :: r => (false, r)
    | r => (false, r)
  let neg := sign.1
  let cs2 := sign.2
  if "Infinity".data.isPrefixOf cs2 then some (.inf neg)
  else
    let ipart := cs2.takeWhile Char.isDigit
    let rest1 := cs2.dropWhile Char.isDigit
    let fsplit : List Char × List Char :=
      match rest1 with
      | '.' :: r => (r.takeWhile Char.isDigit, r.dropWhile Char.isDigit)
      | r => ([], r)
    let fpart := fsplit.1
    let rest2 := fsplit.2
    if ipart.isEmpty && fpart.isEmpty then none
    else
      let epair : Bool × List Char :=
        match rest2 with
        | 'e' :: r | 'E' :: r =>
          match r with
          | '-' :: r2 => (true, r2.takeWhile Char.isDigit)
          | '+' :: r2 => (false, r2.takeWhile Char.isDigit)
          | r2 => (false, r2.takeWhile Char.isDigit)
        | _ => (false, [])
      let edigits := epair.2
      let esign := !edigits.isEmpty && epair.1
      let e := if edigits.isEmpty then 0 else digitsToNat edigits
      some (.num (floatOfParts neg (digitsToNat ipart) (digitsToNat fpart) fpart.length esign e))

/-- `parseInt(v, 10)` as applied in the translator: the argument is a
filled raw string there; parse failure gives `NaN`. -/
def jsParseIntVal : JSVal → JSVal
  | .str s =>
      match jsParseInt s with
      | some n => .num (n : Rat)
      | none => .nan
  | _ => .nan

/-- `parseFloat(v)` as applied in the translator. -/
def jsParseFloatVal : JSVal → JSVal
  | .str s =>
      match jsParseFloat s with
      | some v => v
      | none => .nan
  | _ => .nan

/-- `s.startsWith(p)` (code-unit prefix test). -/
def jsStartsWith (s p : String) : Bool := p.data.isPrefixOf s.data

/-- One step of JS `String.prototype.split` with a single-character
separator: split the character list at every occurrence of `sep`,
keeping empty segments (so `"a  b".split(" ") = ["a","","b"]` and
`"".split(" ") = [""]`). -/
def splitOnChar (sep : Char) : List Char → List (List Char)
  | [] => [[]]
  | c :: cs =>
    let r := splitOnChar sep cs
    if c = sep then [] :: r
    else
      match r with
      | g :: gs => (c :: g) :: gs
      | [] => [[c]]

/-- `s.split(" ")`. -/
def jsSplitSpace (s : String) : List String :=
  (splitOnChar ' ' s.data).map String.mk

/-- The module-level `STATE_TYPES` flag → label table of `parseUPSStatus`. -/
def STATE_TYPES : List (String × String) :=
  [("OL", "Online"),
   ("OB", "On Battery"),
   ("LB", "Low Battery"),
   ("HB", "High Battery"),
   ("RB", "Battery Needs Replaced"),
   ("CHRG", "Battery Charging"),
   ("DISCHRG", "Battery Discharging"),
   ("BYPASS", "Bypass Active"),
   ("CAL", "Runtime Calibration"),
   ("OFF", "Offline"),
   ("OVER", "Overloaded"),
   ("TRIM", "Trimming Voltage"),
   ("BOOST", "Boosting Voltage"),
   ("FSD", "Forced Shutdown"),
   ("ALARM", "Alarm")]

/-- The string interpolated for `STATE_TYPES[word]` in the template
literal: the table label, or the text `"undefined"` when the token is
unknown (interpolating the JS value `undefined` renders as that text). -/
def stateLabel (w : String) : String :=
  match STATE_TYPES.lookup w with
  | some l => l
  | none => "undefined"

/-- The `forEach` accumulation
`readableStatus += STATE_TYPES[word] + ", "` over the split tokens. -/
def buildReadable (tokens : List String) : String :=
  tokens.foldl (fun acc w => acc ++ stateLabel w ++ ", ") ""

/-- `readableStatus.replace(/,\s*$/, "")`: if, after discarding trailing
whitespace, the string ends with a comma, drop that comma and the
trailing whitespace; otherwise the string is unchanged (no match). -/
def stripTrailingCommaWS (s : String) : String :=
  match s.data.reverse.dropWhile isWS with
  | [] => s
  | c :: rest => if c = ',' then String.mk rest.reverse else s

/-- Joining a list of labels with `", "` in order with no trailing
separator — the form in which the spec describes the readable status
string; compared below against the fold-and-strip the code performs. -/
def joinSep : List String → String
  | [] => ""
  | [l] => l
  | l :: l' :: ls => l ++ ", " ++ joinSep (l' :: ls)

/-- The `result.values` object of `parseUPSStatus`: the fixed keys of the
object literal, the `measure_voltage` composite flattened into its two
subfields, and the two conditionally-added keys as `Option` (`none` =
key absent from the object). -/
structure Values where
  name : JSVal
  measure_battery : JSVal
  measure_battery_runtime : JSVal
  measure_temperature : JSVal
  id : JSVal
  measure_voltage_input : JSVal
  measure_voltage_output : JSVal
  status : JSVal
  alarm_status : JSVal
  measure_load : Option JSVal
  measure_battery_voltage : Option JSVal
  deriving DecidableEq, Repr

/-- `Object.entries(result.values)` in insertion order: the object
literal's keys first, then `measure_load` and `measure_battery_voltage`
when they were added. -/
def Values.entries (v : Values) : List (String × FieldVal) :=
  [("name", .scalar v.name),
   ("measure_battery", .scalar v.measure_battery),
   ("measure_battery_runtime", .scalar v.measure_battery_runtime),
   ("measure_temperature", .scalar v.measure_temperature),
   ("id", .scalar v.id),
   ("measure_voltage", .comp [("input", v.measure_voltage_input), ("output", v.measure_voltage_output)]),
   ("status", .scalar v.status),
   ("alarm_status", .scalar v.alarm_status)]
  ++ (match v.measure_load with
      | some x => [("measure_load", FieldVal.scalar x)]
      | none => [])
  ++ (match v.measure_battery_voltage with
      | some x => [("measure_battery_voltage", FieldVal.scalar x)]
      | none => [])

/-- Dynamic property read `status.values[key]`: the entry stored under
`key`, or `none` for the JS value `undefined` when the key is absent. -/
def Values.jsGet (v : Values) (k : String) : Option FieldVal :=
  v.entries.lookup k

/-- The translator's output: the values object plus the ordered
capability-name list. -/
structure Status where
  values : Values
  capabilities : List String
  deriving DecidableEq, Repr

/-- The capability-list construction of `parseUPSStatus` (lines 112–124):
iterate the entries in order, skip `name`/`id` and non-filled values,
push `key.subKey` for each filled subfield of a nested object and `key`
for a filled scalar. -/
def capsFromEntries : List (String × FieldVal) → List String
  | [] => []
  | (k, v) :: rest =>
    (if filledFV v && !(k == "name" || k == "id") then
      match v with
      | .comp subs =>
          subs.filterMap (fun skv => if filledV skv.2 then some (k ++ "." ++ skv.1) else none)
      | .scalar _ => [k]
    else []) ++ capsFromEntries rest

/-- The `result.values` construction of `parseUPSStatus` (lines 77–97):
the object literal of lines 77–89 plus the two conditional additions of
lines 91–97. -/
def mkValues (body : List (String × String)) : Values :=
  { name := if filledV (jget body "ups.model") then jget body "ups.model" else .null
    measure_battery :=
      if filledV (jget body "battery.charge") then jsParseIntVal (jget body "battery.charge") else .null
    measure_battery_runtime :=
      if filledV (jget body "battery.runtime") then jsParseIntVal (jget body "battery.runtime") else .null
    measure_temperature :=
      if filledV (jget body "battery.temperature") then jsParseFloatVal (jget body "battery.temperature") else .null
    id := if filledV (jget body "ups.serial") then jget body "ups.serial" else .null
    measure_voltage_input :=
      if filledV (jget body "input.voltage") then jsParseIntVal (jget body "input.voltage") else .null
    measure_voltage_output :=
      if filledV (jget body "output.voltage") then jsParseIntVal (jget body "output.voltage") else .null
    status := if filledV (jget body "ups.status") then jget body "ups.status" else .null
    alarm_status := .bool false
    measure_load :=
      if filledV (jget body "ups.load") then some (jsParseIntVal (jget body "ups.load")) else none
    measure_battery_voltage :=
      if filledV (jget body "battery.voltage") then some (jsParseFloatVal (jget body "battery.voltage")) else none }

/-- The status post-processing block of lines 99–109: when
`result.values.status` is filled (it is then the raw string), derive
`alarm_status` from its `"OL"` prefix and replace `status` by the
human-readable join of its token labels. -/
def postStatus (v0 : Values) : Values :=
  if filledV v0.status then
    match v0.status with
    | .str s =>
      { v0 with
        alarm_status := .bool (!jsStartsWith s "OL")
        status := .str (stripTrailingCommaWS (buildReadable (jsSplitSpace s))) }
    | _ => v0
  else v0

/-- `parseUPSStatus` (`src/lib/Utils.js` lines 54–127). -/
def parseUPSStatus (body : List (String × String)) : Status :=
  let v1 := postStatus (mkValues body)
  { values := v1, capabilities := capsFromEntries v1.entries }

/-!
## Device model (`src/drivers/ups/device.js`)

The live device and its persisted store are modelled as explicit state;
the host-platform side effects of a reconciliation run are recorded as
an event list.  `getStoreValue` of an unset key returns `null`, modelled
as `none` of the corresponding `Option` store field.
-/

/-- The mutable device state visible to `setCapabilities`: the list of
capabilities currently exposed on the live device (in registration
order) and the two persisted store entries. -/
structure DeviceState where
  liveCaps : List String
  storeFirstRun : Option Bool
  storeCaps : Option (List String)
  deriving DecidableEq, Repr

/-- `this.hasCapability(c)`. -/
def hasCapability (d : DeviceState) (c : String) : Bool :=
  d.liveCaps.contains c

/-- `this.addCapability(c)` appends the capability to the live device. -/
def addCapability (d : DeviceState) (c : String) : DeviceState :=
  { d with liveCaps := d.liveCaps ++ [c] }

/-- A host-platform side effect performed during reconciliation. -/
inductive Ev where
  | addCap (c : String)
  | removeCap (c : String)
  | setVal (c : String) (v : Option FieldVal)
  | setStoreFirstRun (b : Bool)
  deriving DecidableEq, Repr

/-- The JS loose test `x != null`: false exactly for `null` and
`undefined` (an absent key reads as `undefined`). -/
def jsLooseNeNull : Option JSVal → Bool
  | none => false
  | some .null => false
  | some .undefined => false
  | some _ => true

/-- The first dynamic-capability check of `setCapabilities` (lines
69–73): add `measure_load` when the status carries a non-null value for
it and the live device does not already expose it. -/
def dynAdd1 (status : Status) (d : DeviceState) : DeviceState × List Ev :=
  if jsLooseNeNull status.values.measure_load && !hasCapability d "measure_load" then
    (addCapability d "measure_load", [Ev.addCap "measure_load"])
  else (d, [])

/-- The second dynamic-capability check (lines 74–78), running on the
state left by the first. -/
def dynAdd2 (status : Status) (p : DeviceState × List Ev) : DeviceState × List Ev :=
  if jsLooseNeNull status.values.measure_battery_voltage
      && !hasCapability p.1 "measure_battery_voltage" then
    (addCapability p.1 "measure_battery_voltage", p.2 ++ [Ev.addCap "measure_battery_voltage"])
  else p

/-- Both dynamic-capability checks at the top of `setCapabilities`. -/
def dynAdds (status : Status) (d : DeviceState) : DeviceState × List Ev :=
  dynAdd2 status (dynAdd1 status d)

/-- `Array.from(new Set(xs))`: deduplicate keeping the first occurrence
of each element, in insertion order. -/
def jsSetDedup (l : List String) : List String :=
  l.foldl (fun acc x => if acc.contains x then acc else acc ++ [x]) []

/-- The capability-list merge of lines 98–105: a falsy (unset) stored
list is replaced by `status.capabilities`; otherwise the effective list
is the deduplicated concatenation of the stored list and
`status.capabilities`. -/
def mergedCaps : Option (List String) → List String → List String
  | none, caps => caps
  | some known, caps => jsSetDedup (known ++ caps)

/-- One iteration of the value-propagation `forEach` (lines 106–115)
together with `updateValue` (lines 118–121): for a dotted capability the
first segment selects the field and the last segment the subfield of
`status.values`; accessing a subfield of an absent (`undefined`) or
`null` field throws (`none` result), accessing a property of any other
scalar yields `undefined`.  A non-dotted capability is written with
`status.values[capability]` as-is (its `setCapabilityValue` rejection is
caught per-write and never throws). -/
def writeOne (status : Status) (c : String) : Option Ev :=
  let parts := (splitOnChar '.' c.data).map String.mk
  if parts.length > 1 then
    let capabilityName := parts.headD ""
    let subCapabilityName := parts.getLastD ""
    match status.values.jsGet capabilityName with
    | none => none
    | some (.scalar .undefined) => none
    | some (.scalar .null) => none
    | some (.scalar _) =>
        some (.setVal (capabilityName ++ "." ++ subCapabilityName) none)
    | some (.comp subs) =>
        some (.setVal (capabilityName ++ "." ++ subCapabilityName)
          (match subs.lookup subCapabilityName with
           | some v => some (.scalar v)
           | none => none))
  else
    some (.setVal c (status.values.jsGet c))

/-- The result of one `setCapabilities` run: the device state, the side
effects performed (in order), and whether an exception escaped.  Effects
performed before a throw are kept, as in JS. -/
structure SCResult where
  dev : DeviceState
  events : List Ev
  threw : Bool
  deriving DecidableEq, Repr

/-- The value-propagation loop over the effective capability list; a
throw aborts the remaining iterations. -/
def writeLoop (status : Status) : List String → DeviceState → List Ev → SCResult
  | [], d, evs => ⟨d, evs, false⟩
  | c :: rest, d, evs =>
    match writeOne status c with
    | some e => writeLoop status rest d (evs ++ [e])
    | none => ⟨d, evs, true⟩

/-- `setCapabilities` (`src/drivers/ups/device.js` lines 68–116):
dynamic adds, then — only when the stored `first_run` flag is present
and `true` — the first-run pruning pass over `getCapabilities()`
followed by `setStoreValue("first_run", false)`; pruning with an unset
stored capability list throws on its first iteration
(`null.includes`).  Then the merge of stored and status capabilities
(computed in a local variable) and the value-propagation loop. -/
def setCapabilities (status : Status) (d0 : DeviceState) : SCResult :=
  let p := dynAdds status d0
  let d2 := p.1
  let evs2 := p.2
  let firstRun := d2.storeFirstRun
  let deviceCapabilities := d2.storeCaps
  if firstRun == some true then
    match deviceCapabilities with
    | none =>
      if d2.liveCaps.isEmpty then
        writeLoop status (mergedCaps none status.capabilities)
          { d2 with storeFirstRun := some false }
          (evs2 ++ [Ev.setStoreFirstRun false])
      else ⟨d2, evs2, true⟩
    | some known =>
      writeLoop status (mergedCaps (some known) status.capabilities)
        { d2 with
            liveCaps := d2.liveCaps.filter (fun c => known.contains c)
            storeFirstRun := some false }
        (evs2 ++ (d2.liveCaps.filter (fun c => !known.contains c)).map Ev.removeCap
              ++ [Ev.setStoreFirstRun false])
  else
    writeLoop status (mergedCaps deviceCapabilities status.capabilities) d2 evs2

/-!
## Poll tick (`getDeviceData`, lines 32–54)

The NUT client collaborator is abstracted by an outcome oracle for the
four awaited calls of the `try` block; the device-availability and
connection calls are recorded as tick events.
-/

/-- The externally-determined outcomes of the protocol calls within one
tick: whether `start`, `SetUsername` and `SetPassword` succeed, and the
raw variable map returned by `GetUPSVars` (`none` = the call fails). -/
structure NutOutcome where
  startOk : Bool
  userOk : Bool
  passOk : Bool
  varsRes : Option (List (String × String))
  deriving DecidableEq, Repr

/-- An observable action of one poll tick. -/
inductive TickEv where
  | start
  | setUser
  | setPass
  | getVars
  | setAvailable
  | setUnavailable
  | close
  deriving DecidableEq, Repr

/-- The `try` block of `getDeviceData`: stops at the first failing call;
a throw escaping `setCapabilities` also fails the block.  Returns the
device state, the actions performed, and whether the block succeeded. -/
def tryBody (o : NutOutcome) (d : DeviceState) : DeviceState × List TickEv × Bool :=
  if !o.startOk then (d, [TickEv.start], false)
  else if !o.userOk then (d, [TickEv.start, TickEv.setUser], false)
  else if !o.passOk then (d, [TickEv.start, TickEv.setUser, TickEv.setPass], false)
  else
    match o.varsRes with
    | none => (d, [TickEv.start, TickEv.setUser, TickEv.setPass, TickEv.getVars], false)
    | some body =>
      let r := setCapabilities (parseUPSStatus body) d
      if r.threw then
        (r.dev, [TickEv.start, TickEv.setUser, TickEv.setPass, TickEv.getVars], false)
      else
        (r.dev,
         [TickEv.start, TickEv.setUser, TickEv.setPass, TickEv.getVars, TickEv.setAvailable],
         true)

/-- `getDeviceData`: the `try` block, the `catch` converting any failure
into `setUnavailable` with the error message, and the `finally` closing
the connection on every path. -/
def getDeviceData (o : NutOutcome) (d : DeviceState) : DeviceState × List TickEv :=
  let r := tryBody o d
  (r.1, r.2.1 ++ (if r.2.2 then [] else [TickEv.setUnavailable]) ++ [TickEv.close])

/-!
## Verification of the claims
-/

theorem parse_values_eq (body : List (String × String)) :
    (parseUPSStatus body).values = postStatus (mkValues body) := rfl

theorem postStatus_measure_battery (v : Values) :
    (postStatus v).measure_battery = v.measure_battery := by
  unfold postStatus; split
  · split <;> rfl
  · rfl

theorem postStatus_of_blank {v : Values} (h : filledV v.status = false) : postStatus v = v := by
  unfold postStatus; rw [h]; rfl

theorem postStatus_of_str {v : Values} {s : String} (hs : v.status = .str s)
    (h : filledV (JSVal.str s) = true) :
    (postStatus v).status = .str (stripTrailingCommaWS (buildReadable (jsSplitSpace s))) ∧
    (postStatus v).alarm_status = .bool (!jsStartsWith s "OL") := by
  unfold postStatus; rw [hs, h]; exact ⟨rfl, rfl⟩

theorem mkValues_status_none {body : List (String × String)}
    (h : body.lookup "ups.status" = none) : (mkValues body).status = .null := by
  show (if filledV (jget body "ups.status") then jget body "ups.status" else .null) = .null
  rw [jget, h]; rfl

theorem mkValues_status_some {body : List (String × String)} {s : String}
    (h : body.lookup "ups.status" = some s) :
    (mkValues body).status = (if filledV (JSVal.str s) then JSVal.str s else .null) := by
  show (if filledV (jget body "ups.status") then jget body "ups.status" else .null) = _
  rw [jget, h]

theorem parse_alarm_status (body : List (String × String)) :
    (parseUPSStatus body).values.alarm_status =
      match body.lookup "ups.status" with
      | some s => if filledV (JSVal.str s) then JSVal.bool (!jsStartsWith s "OL") else JSVal.bool false
      | none => JSVal.bool false := by
  rw [parse_values_eq]
  cases h : body.lookup "ups.status" with
  | none => rw [postStatus_of_blank (by rw [mkValues_status_none h]; rfl)]; rfl
  | some s =>
    by_cases hf : filledV (JSVal.str s) = true
    · have hs : (mkValues body).status = .str s := by rw [mkValues_status_some h, if_pos hf]
      rw [(postStatus_of_str hs hf).2]
      simp [hf]
    · rw [Bool.not_eq_true] at hf
      have hs : (mkValues body).status = .null := by
        rw [mkValues_status_some h, if_neg (by rw [hf]; exact Bool.false_ne_true)]
      rw [postStatus_of_blank (by rw [hs]; rfl)]
      have halarm : (mkValues body).alarm_status = JSVal.bool false := rfl
      rw [halarm]
      simp [hf]

theorem parse_status_some_filled {body : List (String × String)} {s : String}
    (h : body.lookup "ups.status" = some s) (hf : filledV (JSVal.str s) = true) :
    (parseUPSStatus body).values.status =
      .str (stripTrailingCommaWS (buildReadable (jsSplitSpace s))) := by
  rw [parse_values_eq]
  exact (postStatus_of_str (by rw [mkValues_status_some h, if_pos hf]) hf).1



/-- Claim C5 (confirmed): for every raw telemetry map, the translated
`alarm_status` is `true` iff the raw `ups.status` value is present and
filled and does not start with `"OL"`; when `ups.status` is absent,
`alarm_status` is `false`. -/
theorem C5_alarm_status_iff (body : List (String × String)) :
    ((parseUPSStatus body).values.alarm_status = JSVal.bool true ↔
      ∃ s, body.lookup "ups.status" = some s ∧ filledV (JSVal.str s) = true ∧
        jsStartsWith s "OL" = false) ∧
    (body.lookup "ups.status" = none →
      (parseUPSStatus body).values.alarm_status = JSVal.bool false) := by
  have halarm := parse_alarm_status body
  constructor
  · rw [halarm]
    cases h : body.lookup "ups.status" with
    | none => simp
    | some s =>
      by_cases hf : filledV (JSVal.str s) = true
      · simp [hf]
      · rw [Bool.not_eq_true] at hf
        simp [hf]
  · intro h
    rw [halarm, h]

/-- Witness for C5 at the concrete input `ups.status = "OB"`. -/
theorem C5_witness :
    (parseUPSStatus [("ups.status", "OB")]).values.alarm_status = JSVal.bool true :=
  (C5_alarm_status_iff _).1.mpr ⟨"OB", rfl, by decide, by decide⟩

theorem foldl_step_acc (ts : List String) :
    ∀ a : String, ts.foldl (fun acc w => acc ++ stateLabel w ++ ", ") a
      = a ++ ts.foldl (fun acc w => acc ++ stateLabel w ++ ", ") "" := by
  induction ts with
  | nil => intro a; rw [List.foldl_nil, List.foldl_nil, String.append_empty]
  | cons t tr ih =>
    intro a
    simp only [List.foldl_cons]
    rw [ih (a ++ stateLabel t ++ ", "), ih ("" ++ stateLabel t ++ ", ")]
    simp [String.append_assoc]

theorem buildReadable_cons (t : String) (tr : List String) :
    buildReadable (t :: tr) = (stateLabel t ++ ", ") ++ buildReadable tr := by
  rw [buildReadable, buildReadable, List.foldl_cons, foldl_step_acc]
  simp

theorem build_eq_join (ts : List String) (h : ts ≠ []) :
    buildReadable ts = joinSep (ts.map stateLabel) ++ ", " := by
  induction ts with
  | nil => exact absurd rfl h
  | cons t tr ih =>
    cases tr with
    | nil =>
      rw [buildReadable_cons]
      show (stateLabel t ++ ", ") ++ buildReadable [] = joinSep [stateLabel t] ++ ", "
      rw [show buildReadable [] = "" from rfl, String.append_empty]
      rfl
    | cons t' tr' =>
      rw [buildReadable_cons, ih (by simp)]
      simp only [List.map_cons]
      rw [show joinSep (stateLabel t :: stateLabel t' :: tr'.map stateLabel)
            = stateLabel t ++ ", " ++ joinSep (stateLabel t' :: tr'.map stateLabel) from rfl]
      simp [String.append_assoc]

theorem strip_append (x : String) : stripTrailingCommaWS (x ++ ", ") = x := by
  unfold stripTrailingCommaWS
  rw [String.data_append, show (", " : String).data = [',', ' '] from rfl, List.reverse_append]
  rw [show ([',', ' '] : List Char).reverse = [' ', ','] from rfl]
  rw [show ([' ', ','] ++ x.data.reverse : List Char) = ' ' :: ',' :: x.data.reverse from rfl]
  rw [List.dropWhile_cons, if_pos (show isWS ' ' = true from rfl)]
  rw [List.dropWhile_cons, if_neg (show ¬(isWS ',' = true) by decide)]
  show (if (',' : Char) = ',' then String.mk x.data.reverse.reverse else x ++ ", ") = x
  rw [if_pos rfl, List.reverse_reverse]

theorem splitOnChar_ne_nil (sep : Char) (l : List Char) : splitOnChar sep l ≠ [] := by
  cases l with
  | nil => simp [splitOnChar]
  | cons c cs =>
    simp only [splitOnChar]
    split
    · simp
    · split <;> simp

theorem strip_build (ts : List String) (h : ts ≠ []) :
    stripTrailingCommaWS (buildReadable ts) = joinSep (ts.map stateLabel) := by
  rw [build_eq_join ts h, strip_append]

/-- Claim C6 (corrected): for every filled raw `ups.status`, the
translator splits it on single spaces, maps each token through the
`STATE_TYPES` table, and joins the labels with `", "` in original token
order with no trailing separator.  Unknown tokens do not crash but
render as the text `"undefined"` (not as an empty segment). -/
theorem C6_readable_status_join (body : List (String × String)) (s : String)
    (h : body.lookup "ups.status" = some s) (hf : filledV (JSVal.str s) = true) :
    (parseUPSStatus body).values.status =
      .str (joinSep ((jsSplitSpace s).map stateLabel)) := by
  rw [parse_status_some_filled h hf]
  rw [strip_build _ (by
    intro hc
    exact splitOnChar_ne_nil ' ' s.data (List.map_eq_nil_iff.1 hc))]

/-- Witness for C6: `ups.status = "OL CHRG"` yields exactly
`"Online, Battery Charging"`. -/
theorem C6_witness :
    (parseUPSStatus [("ups.status", "OL CHRG")]).values.status =
      JSVal.str "Online, Battery Charging" :=
  (C6_readable_status_join [("ups.status", "OL CHRG")] "OL CHRG" rfl (by decide)).trans (by decide)


theorem postStatus_fields (v : Values) :
    (postStatus v).name = v.name ∧
    (postStatus v).measure_battery_runtime = v.measure_battery_runtime ∧
    (postStatus v).measure_temperature = v.measure_temperature ∧
    (postStatus v).id = v.id ∧
    (postStatus v).measure_voltage_input = v.measure_voltage_input ∧
    (postStatus v).measure_voltage_output = v.measure_voltage_output ∧
    (postStatus v).measure_battery_voltage = v.measure_battery_voltage ∧
    (postStatus v).measure_load = v.measure_load := by
  unfold postStatus
  split
  · split <;> exact ⟨rfl, rfl, rfl, rfl, rfl, rfl, rfl, rfl⟩
  · exact ⟨rfl, rfl, rfl, rfl, rfl, rfl, rfl, rfl⟩

theorem parse_measure_battery (body : List (String × String)) :
    (parseUPSStatus body).values.measure_battery =
      if filledV (jget body "battery.charge") then jsParseIntVal (jget body "battery.charge")
      else .null := by
  rw [parse_values_eq, postStatus_measure_battery]; rfl

theorem parse_measure_battery_runtime (body : List (String × String)) :
    (parseUPSStatus body).values.measure_battery_runtime =
      if filledV (jget body "battery.runtime") then jsParseIntVal (jget body "battery.runtime")
      else .null := by
  rw [parse_values_eq, (postStatus_fields _).2.1]; rfl

theorem parse_measure_temperature (body : List (String × String)) :
    (parseUPSStatus body).values.measure_temperature =
      if filledV (jget body "battery.temperature") then jsParseFloatVal (jget body "battery.temperature")
      else .null := by
  rw [parse_values_eq, (postStatus_fields _).2.2.1]; rfl

theorem parse_measure_load (body : List (String × String)) :
    (parseUPSStatus body).values.measure_load =
      if filledV (jget body "ups.load") then some (jsParseIntVal (jget body "ups.load"))
      else none := by
  rw [parse_values_eq, (postStatus_fields _).2.2.2.2.2.2.2]; rfl

theorem parse_measure_battery_voltage (body : List (String × String)) :
    (parseUPSStatus body).values.measure_battery_voltage =
      if filledV (jget body "battery.voltage") then some (jsParseFloatVal (jget body "battery.voltage"))
      else none := by
  rw [parse_values_eq, (postStatus_fields _).2.2.2.2.2.2.1]; rfl

/-- Claim C4 (corrected): `parseUPSStatus` is pure and total (it is a
Lean function), and a missing or blank raw field yields `null`; but a
filled raw string that is not parsable as an integer (or float) yields
`NaN`, not `null`. -/
theorem C4_parse_blank_null_unparsable_nan (body : List (String × String)) :
    (filledV (jget body "battery.charge") = false →
      (parseUPSStatus body).values.measure_battery = JSVal.null) ∧
    (∀ s, body.lookup "battery.charge" = some s → filledV (JSVal.str s) = true →
      jsParseInt s = none → (parseUPSStatus body).values.measure_battery = JSVal.nan) ∧
    (filledV (jget body "battery.runtime") = false →
      (parseUPSStatus body).values.measure_battery_runtime = JSVal.null) ∧
    (∀ s, body.lookup "battery.runtime" = some s → filledV (JSVal.str s) = true →
      jsParseInt s = none → (parseUPSStatus body).values.measure_battery_runtime = JSVal.nan) ∧
    (filledV (jget body "battery.temperature") = false →
      (parseUPSStatus body).values.measure_temperature = JSVal.null) ∧
    (∀ s, body.lookup "battery.temperature" = some s → filledV (JSVal.str s) = true →
      jsParseFloat s = none → (parseUPSStatus body).values.measure_temperature = JSVal.nan) := by
  refine ⟨?_, ?_, ?_, ?_, ?_, ?_⟩
  · intro h
    rw [parse_measure_battery, if_neg (by rw [h]; exact Bool.false_ne_true)]
  · intro s hs hf hp
    rw [parse_measure_battery, jget, hs, if_pos hf, jsParseIntVal, hp]
  · intro h
    rw [parse_measure_battery_runtime, if_neg (by rw [h]; exact Bool.false_ne_true)]
  · intro s hs hf hp
    rw [parse_measure_battery_runtime, jget, hs, if_pos hf, jsParseIntVal, hp]
  · intro h
    rw [parse_measure_temperature, if_neg (by rw [h]; exact Bool.false_ne_true)]
  · intro s hs hf hp
    rw [parse_measure_temperature, jget, hs, if_pos hf, jsParseFloatVal, hp]


theorem mem_capsFromEntries {c : String} :
    ∀ {es : List (String × FieldVal)}, c ∈ capsFromEntries es →
      ∃ p, p ∈ es ∧
        ((∃ w, p.2 = FieldVal.scalar w ∧ c = p.1) ∨
         (∃ subs skv, p.2 = FieldVal.comp subs ∧ skv ∈ subs ∧ c = p.1 ++ "." ++ skv.1)) := by
  intro es
  induction es with
  | nil => intro h; exact absurd h (List.not_mem_nil c)
  | cons kv rest ih =>
    intro h
    obtain ⟨k, v⟩ := kv
    simp only [capsFromEntries] at h
    rcases List.mem_append.1 h with h1 | h2
    · refine ⟨(k, v), List.mem_cons_self _ _, ?_⟩
      split at h1
      · cases v with
        | scalar x =>
          exact Or.inl ⟨x, rfl, List.mem_singleton.1 h1⟩
        | comp subs =>
          right
          rcases List.mem_filterMap.1 h1 with ⟨skv, hmem, hsk⟩
          refine ⟨subs, skv, rfl, hmem, ?_⟩
          split at hsk
          · exact (Option.some.inj hsk).symm
          · simp at hsk
      · exact absurd h1 (List.not_mem_nil c)
    · rcases ih h2 with ⟨p, hp, hc⟩
      exact ⟨p, List.mem_cons_of_mem _ hp, hc⟩

theorem caps_key_cases {c : String} {v : Values} (h : c ∈ capsFromEntries v.entries) :
    c ∈ ["name", "measure_battery", "measure_battery_runtime", "measure_temperature", "id",
         "measure_voltage.input", "measure_voltage.output", "status", "alarm_status"] ∨
    (v.measure_load ≠ none ∧ c = "measure_load") ∨
    (v.measure_battery_voltage ≠ none ∧ c = "measure_battery_voltage") := by
  rcases mem_capsFromEntries h with ⟨p, hp, hcase⟩
  rw [Values.entries] at hp
  rcases List.mem_append.1 hp with hp' | hp2
  · rcases List.mem_append.1 hp' with hp8 | hp1
    · simp only [List.mem_cons, List.not_mem_nil, or_false] at hp8
      rcases hp8 with rfl | rfl | rfl | rfl | rfl | rfl | rfl | rfl
      · rcases hcase with ⟨w, _, rfl⟩ | ⟨subs, skv, hcomp, _, _⟩
        · left; simp
        · exact absurd hcomp (by simp)
      · rcases hcase with ⟨w, _, rfl⟩ | ⟨subs, skv, hcomp, _, _⟩
        · left; simp
        · exact absurd hcomp (by simp)
      · rcases hcase with ⟨w, _, rfl⟩ | ⟨subs, skv, hcomp, _, _⟩
        · left; simp
        · exact absurd hcomp (by simp)
      · rcases hcase with ⟨w, _, rfl⟩ | ⟨subs, skv, hcomp, _, _⟩
        · left; simp
        · exact absurd hcomp (by simp)
      · rcases hcase with ⟨w, _, rfl⟩ | ⟨subs, skv, hcomp, _, _⟩
        · left; simp
        · exact absurd hcomp (by simp)
      · rcases hcase with ⟨w, hw, _⟩ | ⟨subs, skv, hcomp, hmem, rfl⟩
        · exact absurd hw (by simp)
        · left
          obtain rfl : [("input", v.measure_voltage_input), ("output", v.measure_voltage_output)] = subs :=
            FieldVal.comp.inj hcomp
          simp only [List.mem_cons, List.not_mem_nil, or_false] at hmem
          rcases hmem with rfl | rfl
          · simp
          · simp
      · rcases hcase with ⟨w, _, rfl⟩ | ⟨subs, skv, hcomp, _, _⟩
        · left; simp
        · exact absurd hcomp (by simp)
      · rcases hcase with ⟨w, _, rfl⟩ | ⟨subs, skv, hcomp, _, _⟩
        · left; simp
        · exact absurd hcomp (by simp)
    · cases hml : v.measure_load with
      | none => rw [hml] at hp1; exact absurd hp1 (List.not_mem_nil p)
      | some x =>
        rw [hml] at hp1
        simp only [List.mem_cons, List.not_mem_nil, or_false] at hp1
        subst hp1
        rcases hcase with ⟨w, _, rfl⟩ | ⟨subs, skv, hcomp, _, _⟩
        · exact Or.inr (Or.inl ⟨by simp [hml], rfl⟩)
        · exact absurd hcomp (by simp)
  · cases hbv : v.measure_battery_voltage with
    | none => rw [hbv] at hp2; exact absurd hp2 (List.not_mem_nil p)
    | some x =>
      rw [hbv] at hp2
      simp only [List.mem_cons, List.not_mem_nil, or_false] at hp2
      subst hp2
      rcases hcase with ⟨w, _, rfl⟩ | ⟨subs, skv, hcomp, _, _⟩
      · exact Or.inr (Or.inr ⟨by simp [hbv], rfl⟩)
      · exact absurd hcomp (by simp)

/-- Claim C8 (confirmed): when `ups.load` (resp. `battery.voltage`) is
absent or blank, the `measure_load` (resp. `measure_battery_voltage`)
key is absent from `values` (no null placeholder) and the capability
list excludes the name; conversely, when the raw source is filled the
key is present. -/
theorem C8_optional_fields_presence (body : List (String × String)) :
    (filledV (jget body "ups.load") = false →
      (parseUPSStatus body).values.measure_load = none ∧
      "measure_load" ∉ (parseUPSStatus body).capabilities) ∧
    (filledV (jget body "ups.load") = true →
      (parseUPSStatus body).values.measure_load ≠ none) ∧
    (filledV (jget body "battery.voltage") = false →
      (parseUPSStatus body).values.measure_battery_voltage = none ∧
      "measure_battery_voltage" ∉ (parseUPSStatus body).capabilities) ∧
    (filledV (jget body "battery.voltage") = true →
      (parseUPSStatus body).values.measure_battery_voltage ≠ none) := by
  have hcapseq : (parseUPSStatus body).capabilities
      = capsFromEntries ((parseUPSStatus body).values.entries) := rfl
  refine ⟨?_, ?_, ?_, ?_⟩
  · intro h
    have h0 : (parseUPSStatus body).values.measure_load = none := by
      rw [parse_measure_load, if_neg (by rw [h]; exact Bool.false_ne_true)]
    refine ⟨h0, fun hc => ?_⟩
    rw [hcapseq] at hc
    rcases caps_key_cases hc with h9 | ⟨hne, _⟩ | ⟨_, habs⟩
    · revert h9; decide
    · exact hne h0
    · revert habs; decide
  · intro h
    rw [parse_measure_load, if_pos h]
    simp
  · intro h
    have h0 : (parseUPSStatus body).values.measure_battery_voltage = none := by
      rw [parse_measure_battery_voltage, if_neg (by rw [h]; exact Bool.false_ne_true)]
    refine ⟨h0, fun hc => ?_⟩
    rw [hcapseq] at hc
    rcases caps_key_cases hc with h9 | ⟨_, habs⟩ | ⟨hne, _⟩
    · revert h9; decide
    · revert habs; decide
    · exact hne h0
  · intro h
    rw [parse_measure_battery_voltage, if_pos h]
    simp


theorem writeOne_shape {st : Status} {c : String} {e : Ev} (h : writeOne st c = some e) :
    ∃ n v, e = Ev.setVal n v := by
  simp only [writeOne] at h
  split at h
  · split at h
    · simp at h
    · simp at h
    · simp at h
    · exact ⟨_, _, (Option.some.inj h).symm⟩
    · exact ⟨_, _, (Option.some.inj h).symm⟩
  · exact ⟨_, _, (Option.some.inj h).symm⟩

theorem writeLoop_dev (st : Status) :
    ∀ (caps : List String) (d : DeviceState) (evs : List Ev),
      (writeLoop st caps d evs).dev = d := by
  intro caps
  induction caps with
  | nil => intro d evs; rfl
  | cons c rest ih =>
    intro d evs
    rw [writeLoop]
    split
    · exact ih d _
    · rfl

theorem writeLoop_events (st : Status) :
    ∀ (caps : List String) (d : DeviceState) (evs : List Ev),
      ∃ tail, (writeLoop st caps d evs).events = evs ++ tail ∧
        ∀ e ∈ tail, ∃ n v, e = Ev.setVal n v := by
  intro caps
  induction caps with
  | nil => intro d evs; exact ⟨[], by rw [writeLoop]; simp, fun e he => absurd he (List.not_mem_nil e)⟩
  | cons c rest ih =>
    intro d evs
    rw [writeLoop]
    split
    · next e he =>
      rcases ih d (evs ++ [e]) with ⟨tail, ht, hall⟩
      refine ⟨e :: tail, by rw [ht]; simp, ?_⟩
      intro e' he'
      rcases List.mem_cons.1 he' with rfl | h2
      · exact writeOne_shape he
      · exact hall e' h2
    · exact ⟨[], by simp, fun e he => absurd he (List.not_mem_nil e)⟩

theorem writeLoop_threw_false (st : Status) :
    ∀ (caps : List String) (d : DeviceState) (evs : List Ev),
      (writeLoop st caps d evs).threw = false →
      ∀ c ∈ caps, ∃ e, writeOne st c = some e ∧ e ∈ (writeLoop st caps d evs).events := by
  intro caps
  induction caps with
  | nil => intro d evs _ c hc; exact absurd hc (List.not_mem_nil c)
  | cons c0 rest ih =>
    intro d evs hth c hc
    cases hw : writeOne st c0 with
    | some e =>
      have hstep : writeLoop st (c0 :: rest) d evs = writeLoop st rest d (evs ++ [e]) := by
        rw [writeLoop, hw]
      rw [hstep] at hth ⊢
      rcases List.mem_cons.1 hc with rfl | hc'
      · rcases writeLoop_events st rest d (evs ++ [e]) with ⟨tail, ht, _⟩
        exact ⟨e, hw, by rw [ht]; simp⟩
      · exact ih d (evs ++ [e]) hth c hc'
    | none =>
      have hstep : writeLoop st (c0 :: rest) d evs = ⟨d, evs, true⟩ := by
        rw [writeLoop, hw]
      rw [hstep] at hth
      simp at hth

theorem dynAdd1_facts (st : Status) (d : DeviceState) :
    (dynAdd1 st d).1.storeFirstRun = d.storeFirstRun ∧
    (dynAdd1 st d).1.storeCaps = d.storeCaps ∧
    (∃ ext, (dynAdd1 st d).1.liveCaps = d.liveCaps ++ ext) ∧
    (∀ e ∈ (dynAdd1 st d).2, ∃ c, e = Ev.addCap c) := by
  unfold dynAdd1
  split
  · exact ⟨rfl, rfl, ⟨["measure_load"], rfl⟩,
      fun e he => ⟨"measure_load", List.mem_singleton.1 he⟩⟩
  · exact ⟨rfl, rfl, ⟨[], (List.append_nil _).symm⟩,
      fun e he => absurd he (List.not_mem_nil e)⟩

theorem dynAdd2_facts (st : Status) (p : DeviceState × List Ev) :
    (dynAdd2 st p).1.storeFirstRun = p.1.storeFirstRun ∧
    (dynAdd2 st p).1.storeCaps = p.1.storeCaps ∧
    (∃ ext, (dynAdd2 st p).1.liveCaps = p.1.liveCaps ++ ext) ∧
    (∀ e ∈ (dynAdd2 st p).2, e ∈ p.2 ∨ ∃ c, e = Ev.addCap c) := by
  unfold dynAdd2
  split
  · refine ⟨rfl, rfl, ⟨["measure_battery_voltage"], rfl⟩, fun e he => ?_⟩
    rcases List.mem_append.1 he with h1 | h2
    · exact Or.inl h1
    · exact Or.inr ⟨"measure_battery_voltage", List.mem_singleton.1 h2⟩
  · exact ⟨rfl, rfl, ⟨[], (List.append_nil _).symm⟩, fun e he => Or.inl he⟩

theorem dynAdds_facts (st : Status) (d : DeviceState) :
    (dynAdds st d).1.storeFirstRun = d.storeFirstRun ∧
    (dynAdds st d).1.storeCaps = d.storeCaps ∧
    (∃ ext, (dynAdds st d).1.liveCaps = d.liveCaps ++ ext) ∧
    (∀ e ∈ (dynAdds st d).2, ∃ c, e = Ev.addCap c) := by
  have h1 := dynAdd1_facts st d
  have h2 := dynAdd2_facts st (dynAdd1 st d)
  refine ⟨h2.1.trans h1.1, h2.2.1.trans h1.2.1, ?_, ?_⟩
  · rcases h2.2.2.1 with ⟨e2, he2⟩
    rcases h1.2.2.1 with ⟨e1, he1⟩
    exact ⟨e1 ++ e2, by rw [dynAdds, he2, he1, List.append_assoc]⟩
  · intro e he
    rcases h2.2.2.2 e he with hin | hadd
    · exact h1.2.2.2 e hin
    · exact hadd

theorem setCapabilities_storeCaps (st : Status) (d : DeviceState) :
    (setCapabilities st d).dev.storeCaps = d.storeCaps := by
  simp only [setCapabilities]
  split
  · split
    · split
      · rw [writeLoop_dev]; exact (dynAdds_facts st d).2.1
      · exact (dynAdds_facts st d).2.1
    · rw [writeLoop_dev]; exact (dynAdds_facts st d).2.1
  · rw [writeLoop_dev]; exact (dynAdds_facts st d).2.1


theorem contains_eq_mem (l : List String) (c : String) : l.contains c = true ↔ c ∈ l :=
  List.elem_iff

theorem mem_dedup_foldl (l : List String) :
    ∀ (acc : List String) (c : String),
      c ∈ l.foldl (fun acc x => if acc.contains x then acc else acc ++ [x]) acc ↔
        (c ∈ acc ∨ c ∈ l) := by
  induction l with
  | nil => intro acc c; simp
  | cons x xs ih =>
    intro acc c
    rw [List.foldl_cons]
    by_cases hx : acc.contains x = true
    · rw [if_pos hx, ih]
      constructor
      · rintro (h | h)
        · exact Or.inl h
        · exact Or.inr (List.mem_cons_of_mem _ h)
      · rintro (h | h)
        · exact Or.inl h
        · rcases List.mem_cons.1 h with rfl | h'
          · exact Or.inl ((contains_eq_mem _ _).1 hx)
          · exact Or.inr h'
    · rw [if_neg hx, ih]
      simp only [List.mem_append, List.mem_singleton, List.mem_cons]
      tauto

theorem nodup_dedup_foldl (l : List String) :
    ∀ (acc : List String), acc.Nodup →
      (l.foldl (fun acc x => if acc.contains x then acc else acc ++ [x]) acc).Nodup := by
  induction l with
  | nil => intro acc h; simpa
  | cons x xs ih =>
    intro acc h
    rw [List.foldl_cons]
    by_cases hx : acc.contains x = true
    · rw [if_pos hx]; exact ih acc h
    · rw [if_neg hx]
      refine ih _ ?_
      rw [List.nodup_append]
      refine ⟨h, List.nodup_singleton x, ?_⟩
      intro a ha hax
      rcases List.mem_singleton.1 hax with rfl
      exact hx ((contains_eq_mem _ _).2 ha)

theorem mem_jsSetDedup (l : List String) (c : String) : c ∈ jsSetDedup l ↔ c ∈ l := by
  rw [jsSetDedup, mem_dedup_foldl]
  simp

theorem nodup_jsSetDedup (l : List String) : (jsSetDedup l).Nodup :=
  nodup_dedup_foldl l [] List.nodup_nil

theorem setCapabilities_eq_prune_known (st : Status) (d : DeviceState) (known : List String)
    (h1 : d.storeFirstRun = some true) (h2 : d.storeCaps = some known) :
    setCapabilities st d
      = writeLoop st (mergedCaps (some known) st.capabilities)
          { (dynAdds st d).1 with
              liveCaps := (dynAdds st d).1.liveCaps.filter (fun c => known.contains c)
              storeFirstRun := some false }
          ((dynAdds st d).2
            ++ ((dynAdds st d).1.liveCaps.filter (fun c => !known.contains c)).map Ev.removeCap
            ++ [Ev.setStoreFirstRun false]) := by
  have hfr : (dynAdds st d).1.storeFirstRun = some true := (dynAdds_facts st d).1.trans h1
  have hsc : (dynAdds st d).1.storeCaps = some known := (dynAdds_facts st d).2.1.trans h2
  simp only [setCapabilities]
  rw [hfr, hsc]
  rfl

theorem setCapabilities_eq_throw (st : Status) (d : DeviceState)
    (h1 : d.storeFirstRun = some true) (h2 : d.storeCaps = none)
    (h3 : (dynAdds st d).1.liveCaps.isEmpty = false) :
    setCapabilities st d = ⟨(dynAdds st d).1, (dynAdds st d).2, true⟩ := by
  have hfr : (dynAdds st d).1.storeFirstRun = some true := (dynAdds_facts st d).1.trans h1
  have hsc : (dynAdds st d).1.storeCaps = none := (dynAdds_facts st d).2.1.trans h2
  simp only [setCapabilities]
  rw [hfr, hsc, h3]
  rfl

theorem setCapabilities_eq_prune_none (st : Status) (d : DeviceState)
    (h1 : d.storeFirstRun = some true) (h2 : d.storeCaps = none)
    (h3 : (dynAdds st d).1.liveCaps.isEmpty = true) :
    setCapabilities st d
      = writeLoop st (mergedCaps none st.capabilities)
          { (dynAdds st d).1 with storeFirstRun := some false }
          ((dynAdds st d).2 ++ [Ev.setStoreFirstRun false]) := by
  have hfr : (dynAdds st d).1.storeFirstRun = some true := (dynAdds_facts st d).1.trans h1
  have hsc : (dynAdds st d).1.storeCaps = none := (dynAdds_facts st d).2.1.trans h2
  simp only [setCapabilities]
  rw [hfr, hsc, h3]
  rfl

theorem setCapabilities_eq_noprune (st : Status) (d : DeviceState)
    (h1 : (d.storeFirstRun == some true) = false) :
    setCapabilities st d
      = writeLoop st (mergedCaps d.storeCaps st.capabilities) (dynAdds st d).1 (dynAdds st d).2 := by
  have hfr : ((dynAdds st d).1.storeFirstRun == some true) = false := by
    rw [(dynAdds_facts st d).1]; exact h1
  have hsc : (dynAdds st d).1.storeCaps = d.storeCaps := (dynAdds_facts st d).2.1
  simp only [setCapabilities]
  rw [hfr, hsc]
  rfl



theorem setCapabilities_events_mem (st : Status) (d : DeviceState) :
    ∀ e ∈ (setCapabilities st d).events,
      e ∈ (dynAdds st d).2 ∨ (∃ c, e = Ev.removeCap c) ∨
      e = Ev.setStoreFirstRun false ∨ (∃ n v, e = Ev.setVal n v) := by
  intro e he
  rcases Bool.eq_false_or_eq_true (d.storeFirstRun == some true) with hb | hb
  swap
  · rw [setCapabilities_eq_noprune st d hb] at he
    rcases writeLoop_events st (mergedCaps d.storeCaps st.capabilities)
        (dynAdds st d).1 (dynAdds st d).2 with ⟨tail, ht, hall⟩
    rw [ht] at he
    rcases List.mem_append.1 he with h | h
    · exact Or.inl h
    · exact Or.inr (Or.inr (Or.inr (hall e h)))
  · have hfr : d.storeFirstRun = some true := by rwa [beq_iff_eq] at hb
    cases hc : d.storeCaps with
    | some known =>
      rw [setCapabilities_eq_prune_known st d known hfr hc] at he
      rcases writeLoop_events st (mergedCaps (some known) st.capabilities) _ _ with ⟨tail, ht, hall⟩
      rw [ht] at he
      simp only [List.mem_append] at he
      rcases he with ((h | h) | h) | h
      · exact Or.inl h
      · rcases List.mem_map.1 h with ⟨c, _, rfl⟩
        exact Or.inr (Or.inl ⟨c, rfl⟩)
      · exact Or.inr (Or.inr (Or.inl (List.mem_singleton.1 h)))
      · exact Or.inr (Or.inr (Or.inr (hall e h)))
    | none =>
      cases hl : (dynAdds st d).1.liveCaps.isEmpty with
      | false =>
        rw [setCapabilities_eq_throw st d hfr hc hl] at he
        exact Or.inl he
      | true =>
        rw [setCapabilities_eq_prune_none st d hfr hc hl] at he
        rcases writeLoop_events st (mergedCaps none st.capabilities) _ _ with ⟨tail, ht, hall⟩
        rw [ht] at he
        simp only [List.mem_append] at he
        rcases he with (h | h) | h
        · exact Or.inl h
        · exact Or.inr (Or.inr (Or.inl (List.mem_singleton.1 h)))
        · exact Or.inr (Or.inr (Or.inr (hall e h)))

theorem setCapabilities_writeLoop_of_not_threw (st : Status) (d : DeviceState)
    (h : (setCapabilities st d).threw = false) :
    ∃ d' evs', setCapabilities st d
      = writeLoop st (mergedCaps d.storeCaps st.capabilities) d' evs' := by
  rcases Bool.eq_false_or_eq_true (d.storeFirstRun == some true) with hb | hb
  swap
  · exact ⟨_, _, setCapabilities_eq_noprune st d hb⟩
  · have hfr : d.storeFirstRun = some true := by rwa [beq_iff_eq] at hb
    cases hc : d.storeCaps with
    | some known => exact ⟨_, _, setCapabilities_eq_prune_known st d known hfr hc⟩
    | none =>
      cases hl : (dynAdds st d).1.liveCaps.isEmpty with
      | true => exact ⟨_, _, setCapabilities_eq_prune_none st d hfr hc hl⟩
      | false =>
        rw [setCapabilities_eq_throw st d hfr hc hl] at h
        simp at h


/-- Claim C1 (corrected): when the persisted `first_run` flag is set
and `true` (and the persisted capability set is present), every
capability exposed on the live device (after the dynamic adds) that is
not in the persisted set is removed, and `first_run` is persisted as
`false`; the only value ever written to `first_run` is `false`.  Unset
`first_run` is treated as falsy, not truthy (see the counterexample). -/
theorem C1_firstRun_prune_when_set_true (st : Status) (d : DeviceState) (known : List String)
    (h1 : d.storeFirstRun = some true) (h2 : d.storeCaps = some known) :
    (setCapabilities st d).dev.liveCaps
        = (dynAdds st d).1.liveCaps.filter (fun c => known.contains c) ∧
    (setCapabilities st d).dev.storeFirstRun = some false ∧
    (∀ c, c ∈ (dynAdds st d).1.liveCaps → known.contains c = false →
      Ev.removeCap c ∈ (setCapabilities st d).events) ∧
    (∀ b, Ev.setStoreFirstRun b ∈ (setCapabilities st d).events → b = false) := by
  have hset := setCapabilities_eq_prune_known st d known h1 h2
  rcases writeLoop_events st (mergedCaps (some known) st.capabilities)
      { (dynAdds st d).1 with
          liveCaps := (dynAdds st d).1.liveCaps.filter (fun c => known.contains c)
          storeFirstRun := some false }
      ((dynAdds st d).2
        ++ ((dynAdds st d).1.liveCaps.filter (fun c => !known.contains c)).map Ev.removeCap
        ++ [Ev.setStoreFirstRun false]) with ⟨tail, ht, hall⟩
  refine ⟨?_, ?_, ?_, ?_⟩
  · rw [hset, writeLoop_dev]
  · rw [hset, writeLoop_dev]
  · intro c hc hcont
    rw [hset, ht]
    simp only [List.mem_append]
    left; left; right
    exact List.mem_map.2 ⟨c, List.mem_filter.2 ⟨hc, by rw [hcont]; rfl⟩, rfl⟩
  · intro b hbmem
    rw [hset, ht] at hbmem
    simp only [List.mem_append] at hbmem
    rcases hbmem with ((h | h) | h) | h
    · rcases (dynAdds_facts st d).2.2.2 _ h with ⟨c, hc⟩
      exact Ev.noConfusion hc
    · rcases List.mem_map.1 h with ⟨c, _, hc⟩
      exact Ev.noConfusion hc.symm
    · have h' := List.mem_singleton.1 h
      injection h'
    · rcases hall _ h with ⟨n, v, hv⟩
      exact Ev.noConfusion hv

/-- Claim C2 (corrected): the merged capability list (the status's list
when the store is unset, else the deduplicated order-insensitive union
of stored list and status list) is computed and used as the effective
write list, but it is never written back to the store: the persisted
capability set is unchanged by reconciliation. -/
theorem C2_merge_effective_not_persisted (st : Status) (d : DeviceState) :
    (setCapabilities st d).dev.storeCaps = d.storeCaps ∧
    (∀ c, c ∈ mergedCaps d.storeCaps st.capabilities ↔
      (c ∈ d.storeCaps.getD [] ∨ c ∈ st.capabilities)) ∧
    (∀ known, d.storeCaps = some known → (mergedCaps d.storeCaps st.capabilities).Nodup) := by
  refine ⟨setCapabilities_storeCaps st d, ?_, ?_⟩
  · intro c
    cases hc : d.storeCaps with
    | none => simp [mergedCaps]
    | some known => simp [mergedCaps, mem_jsSetDedup, List.mem_append]
  · intro known hc
    rw [hc]
    exact nodup_jsSetDedup _

/-- Claim C3 (corrected): for every (undotted) capability in the
effective list the reconciler attempts a `setCapabilityValue` write
unconditionally — when the name does not resolve in `status.values` the
write carries `undefined` (`none`), rather than being skipped; the
per-write `.catch` keeps this from failing the run. -/
theorem C3_write_attempted_unresolved (st : Status) (d : DeviceState) (c : String)
    (h1 : (setCapabilities st d).threw = false)
    (h2 : c ∈ mergedCaps d.storeCaps st.capabilities)
    (h3 : (splitOnChar '.' c.data).length ≤ 1) :
    Ev.setVal c (st.values.jsGet c) ∈ (setCapabilities st d).events := by
  have hw : writeOne st c = some (Ev.setVal c (st.values.jsGet c)) := by
    simp only [writeOne]
    rw [if_neg (by rw [List.length_map]; omega)]
  rcases setCapabilities_writeLoop_of_not_threw st d h1 with ⟨d', evs', hset⟩
  rw [hset] at h1 ⊢
  rcases writeLoop_threw_false st _ d' evs' h1 c h2 with ⟨e, hwe, hmem⟩
  rw [hw] at hwe
  exact (Option.some.inj hwe) ▸ hmem

/-- Claim C10 (confirmed): with `first_run = true`, an unset persisted
capability list, and a non-empty live device, `setCapabilities` throws
(`null.includes`) before pruning: the only effects are the dynamic
adds — no capability is removed, no value is written, and `first_run`
remains `true`. -/
theorem C10_prune_throws_on_null_known (st : Status) (d : DeviceState)
    (h1 : d.storeFirstRun = some true) (h2 : d.storeCaps = none) (h3 : d.liveCaps ≠ []) :
    (setCapabilities st d).threw = true ∧
    (∀ e ∈ (setCapabilities st d).events, ∃ c, e = Ev.addCap c) ∧
    (setCapabilities st d).dev.storeFirstRun = some true ∧
    (setCapabilities st d).dev.storeCaps = none := by
  have hl : (dynAdds st d).1.liveCaps.isEmpty = false := by
    rcases (dynAdds_facts st d).2.2.1 with ⟨ext, hext⟩
    cases hll : (dynAdds st d).1.liveCaps with
    | nil =>
      rw [hll] at hext
      exact absurd (List.append_eq_nil.1 hext.symm).1 h3
    | cons a as => rfl
  rw [setCapabilities_eq_throw st d h1 h2 hl]
  exact ⟨rfl, fun e he => (dynAdds_facts st d).2.2.2 e he,
    (dynAdds_facts st d).1.trans h1, (dynAdds_facts st d).2.1.trans h2⟩

/-- Claim C7 (confirmed): running `setCapabilities` a second time with
the same status, against the state left by the first run when the live
device already exposes all of the status's capabilities (including the
dynamic ones), performs no capability additions and leaves the
persisted capability set unchanged. -/
theorem C7_reconcile_idempotent (st : Status) (d0 : DeviceState)
    (h1 : (jsLooseNeNull st.values.measure_load
            && !hasCapability (setCapabilities st d0).dev "measure_load") = false)
    (h2 : (jsLooseNeNull st.values.measure_battery_voltage
            && !hasCapability (setCapabilities st d0).dev "measure_battery_voltage") = false)
    (h3 : st.capabilities.all
            (fun c => (setCapabilities st d0).dev.liveCaps.contains c) = true) :
    (∀ c, Ev.addCap c ∉ (setCapabilities st (setCapabilities st d0).dev).events) ∧
    (setCapabilities st (setCapabilities st d0).dev).dev.storeCaps
      = (setCapabilities st d0).dev.storeCaps := by
  have ha : dynAdd1 st (setCapabilities st d0).dev = ((setCapabilities st d0).dev, []) := by
    simp only [dynAdd1]
    rw [h1]
    rfl
  have hb : dynAdds st (setCapabilities st d0).dev = ((setCapabilities st d0).dev, []) := by
    show dynAdd2 st (dynAdd1 st (setCapabilities st d0).dev) = _
    rw [ha]
    simp only [dynAdd2]
    rw [h2]
    rfl
  refine ⟨?_, setCapabilities_storeCaps st _⟩
  intro c hmem
  rcases setCapabilities_events_mem st (setCapabilities st d0).dev _ hmem with h | ⟨c', hc⟩ | hc | ⟨n, v, hc⟩
  · rw [hb] at h
    exact absurd h (List.not_mem_nil _)
  · exact Ev.noConfusion hc
  · exact Ev.noConfusion hc
  · exact Ev.noConfusion hc

theorem tryBody_cases (o : NutOutcome) (d : DeviceState) :
    ((tryBody o d).2.1 = [TickEv.start] ∧ (tryBody o d).2.2 = false) ∨
    ((tryBody o d).2.1 = [TickEv.start, TickEv.setUser] ∧ (tryBody o d).2.2 = false) ∨
    ((tryBody o d).2.1 = [TickEv.start, TickEv.setUser, TickEv.setPass] ∧
      (tryBody o d).2.2 = false) ∨
    ((tryBody o d).2.1 = [TickEv.start, TickEv.setUser, TickEv.setPass, TickEv.getVars] ∧
      (tryBody o d).2.2 = false) ∨
    ((tryBody o d).2.1
        = [TickEv.start, TickEv.setUser, TickEv.setPass, TickEv.getVars, TickEv.setAvailable] ∧
      (tryBody o d).2.2 = true) := by
  simp only [tryBody]
  split
  · exact Or.inl ⟨rfl, rfl⟩
  · split
    · exact Or.inr (Or.inl ⟨rfl, rfl⟩)
    · split
      · exact Or.inr (Or.inr (Or.inl ⟨rfl, rfl⟩))
      · split
        · exact Or.inr (Or.inr (Or.inr (Or.inl ⟨rfl, rfl⟩)))
        · split
          · exact Or.inr (Or.inr (Or.inr (Or.inl ⟨rfl, rfl⟩)))
          · exact Or.inr (Or.inr (Or.inr (Or.inr ⟨rfl, rfl⟩)))

/-- Claim C9 (confirmed): on every poll tick the connection is closed
exactly once, as the final action, on every exit path; a failing
connect/authenticate/fetch (or a throwing reconciliation) is converted
into `setUnavailable` instead of propagating, and a successful tick
marks the device available. -/
theorem C9_tick_always_closes (o : NutOutcome) (d : DeviceState) :
    ((getDeviceData o d).2.count TickEv.close = 1) ∧
    ((getDeviceData o d).2.getLast? = some TickEv.close) ∧
    ((tryBody o d).2.2 = false →
      TickEv.setUnavailable ∈ (getDeviceData o d).2 ∧
      TickEv.setAvailable ∉ (getDeviceData o d).2) ∧
    ((tryBody o d).2.2 = true →
      TickEv.setAvailable ∈ (getDeviceData o d).2 ∧
      TickEv.setUnavailable ∉ (getDeviceData o d).2) := by
  have hgd : (getDeviceData o d).2
      = (tryBody o d).2.1
          ++ (if (tryBody o d).2.2 then [] else [TickEv.setUnavailable]) ++ [TickEv.close] := rfl
  rcases tryBody_cases o d with ⟨he, ho⟩ | ⟨he, ho⟩ | ⟨he, ho⟩ | ⟨he, ho⟩ | ⟨he, ho⟩ <;>
    rw [hgd, he, ho] <;> exact ⟨by decide, by decide, by decide, by decide⟩


/-- Counterexample to C1 as stated: with `first_run` unset, a live
capability `foo` outside the persisted set is NOT removed and
`first_run` is not persisted as `false` — unset is treated as falsy,
contrary to the claim. -/
theorem C1_counterexample :
    (setCapabilities (parseUPSStatus []) ⟨["foo"], none, some ["measure_battery"]⟩).dev.liveCaps
        = ["foo"] ∧
    (setCapabilities (parseUPSStatus []) ⟨["foo"], none, some ["measure_battery"]⟩).dev.storeFirstRun
        = none ∧
    Ev.removeCap "foo"
      ∉ (setCapabilities (parseUPSStatus []) ⟨["foo"], none, some ["measure_battery"]⟩).events := by
  decide

/-- Witness for C1: with `first_run = true` and persisted
`{measure_battery}`, the live `foo` is removed and `first_run` becomes
`false`. -/
theorem C1_witness :
    (setCapabilities (parseUPSStatus [])
        ⟨["measure_battery", "foo"], some true, some ["measure_battery"]⟩).dev.liveCaps
        = ["measure_battery"] ∧
    (setCapabilities (parseUPSStatus [])
        ⟨["measure_battery", "foo"], some true, some ["measure_battery"]⟩).dev.storeFirstRun
        = some false ∧
    Ev.removeCap "foo"
      ∈ (setCapabilities (parseUPSStatus [])
          ⟨["measure_battery", "foo"], some true, some ["measure_battery"]⟩).events :=
  ⟨(C1_firstRun_prune_when_set_true _ _ ["measure_battery"] rfl rfl).1.trans (by decide),
   (C1_firstRun_prune_when_set_true _ _ ["measure_battery"] rfl rfl).2.1,
   (C1_firstRun_prune_when_set_true _ _ ["measure_battery"] rfl rfl).2.2.1 "foo" (by decide) (by decide)⟩

/-- Counterexample to C2 as stated: after reconciling persisted
`{measure_battery}` with a status whose capabilities include
`measure_load`, the persisted store still equals `{measure_battery}` —
the union is not persisted. -/
theorem C2_counterexample :
    (setCapabilities (parseUPSStatus [("battery.charge", "50"), ("ups.load", "10")])
        ⟨["measure_battery"], some false, some ["measure_battery"]⟩).dev.storeCaps
      = some ["measure_battery"] ∧
    "measure_load" ∈ (parseUPSStatus [("battery.charge", "50"), ("ups.load", "10")]).capabilities ∧
    ("measure_load" : String) ∉ ["measure_battery"] := by decide

/-- Witness for C2 with persisted `{measure_battery}` and a status
carrying `measure_load`. -/
theorem C2_witness :
    (setCapabilities (parseUPSStatus [("ups.load", "10")])
        ⟨[], some false, some ["measure_battery"]⟩).dev.storeCaps = some ["measure_battery"] ∧
    ("measure_load" ∈ mergedCaps (some ["measure_battery"])
        (parseUPSStatus [("ups.load", "10")]).capabilities ↔
      ("measure_load" ∈ (some ["measure_battery"] : Option (List String)).getD [] ∨
       "measure_load" ∈ (parseUPSStatus [("ups.load", "10")]).capabilities)) ∧
    (mergedCaps (some ["measure_battery"]) (parseUPSStatus [("ups.load", "10")]).capabilities).Nodup :=
  ⟨(C2_merge_effective_not_persisted (parseUPSStatus [("ups.load", "10")]) ⟨[], some false, some ["measure_battery"]⟩).1,
   (C2_merge_effective_not_persisted (parseUPSStatus [("ups.load", "10")]) ⟨[], some false, some ["measure_battery"]⟩).2.1 "measure_load",
   (C2_merge_effective_not_persisted (parseUPSStatus [("ups.load", "10")]) ⟨[], some false, some ["measure_battery"]⟩).2.2
     ["measure_battery"] rfl⟩

/-- Counterexample to C3 as stated: with persisted `{measure_load}` and
a status without `ups.load`, a write for `measure_load` IS attempted,
with the JS value `undefined` — the claim says no write is attempted. -/
theorem C3_counterexample :
    (parseUPSStatus []).values.jsGet "measure_load" = none ∧
    Ev.setVal "measure_load" none
      ∈ (setCapabilities (parseUPSStatus [])
          ⟨["measure_load"], some false, some ["measure_load"]⟩).events := by decide

/-- Witness for C3: the `alarm_status` write event carries exactly the
resolved value. -/
theorem C3_witness :
    Ev.setVal "alarm_status" ((parseUPSStatus [("ups.status", "OB")]).values.jsGet "alarm_status")
      ∈ (setCapabilities (parseUPSStatus [("ups.status", "OB")]) ⟨[], some false, none⟩).events :=
  C3_write_attempted_unresolved _ _ "alarm_status" (by decide) (by decide) (by decide)

/-- Counterexample to C4 as stated: `battery.charge = "abc"` is filled
but not parsable as an integer, and the resulting `measure_battery` is
`NaN`, not `null`. -/
theorem C4_counterexample :
    (parseUPSStatus [("battery.charge", "abc")]).values.measure_battery = JSVal.nan ∧
    JSVal.nan ≠ JSVal.null := by decide

/-- Witness for C4: a blank `battery.runtime` yields `null`; the filled
unparsable `battery.charge = "abc"` yields `NaN`. -/
theorem C4_witness :
    (parseUPSStatus [("battery.runtime", " ")]).values.measure_battery_runtime = JSVal.null ∧
    (parseUPSStatus [("battery.charge", "abc")]).values.measure_battery = JSVal.nan :=
  ⟨(C4_parse_blank_null_unparsable_nan [("battery.runtime", " ")]).2.2.1 (by decide),
   (C4_parse_blank_null_unparsable_nan [("battery.charge", "abc")]).2.1 "abc" rfl (by decide) (by decide)⟩

/-- Counterexample to C6 as stated: an unknown token (`"FOO"`) renders
as the segment `"undefined"`, not as an empty segment. -/
theorem C6_counterexample :
    (parseUPSStatus [("ups.status", "FOO")]).values.status = JSVal.str "undefined" ∧
    JSVal.str "undefined" ≠ JSVal.str "" := by decide

/-- Witness for C7 at a concrete status and device state. -/
theorem C7_witness :
    Ev.addCap "measure_load"
      ∉ (setCapabilities (parseUPSStatus [("ups.load", "10")])
          (setCapabilities (parseUPSStatus [("ups.load", "10")])
            ⟨["alarm_status", "measure_load"], none, none⟩).dev).events ∧
    (setCapabilities (parseUPSStatus [("ups.load", "10")])
        (setCapabilities (parseUPSStatus [("ups.load", "10")])
          ⟨["alarm_status", "measure_load"], none, none⟩).dev).dev.storeCaps = none :=
  ⟨(C7_reconcile_idempotent _ _ (by decide) (by decide) (by decide)).1 "measure_load",
   ((C7_reconcile_idempotent _ _ (by decide) (by decide) (by decide)).2).trans (by decide)⟩

/-- Witness for C8 at empty telemetry and at filled `ups.load` /
`battery.voltage`. -/
theorem C8_witness :
    (parseUPSStatus []).values.measure_load = none ∧
    "measure_load" ∉ (parseUPSStatus []).capabilities ∧
    (parseUPSStatus [("ups.load", "5")]).values.measure_load ≠ none ∧
    (parseUPSStatus [("battery.voltage", "13.2")]).values.measure_battery_voltage ≠ none :=
  ⟨((C8_optional_fields_presence []).1 (by decide)).1, ((C8_optional_fields_presence []).1 (by decide)).2,
   (C8_optional_fields_presence [("ups.load", "5")]).2.1 (by decide),
   (C8_optional_fields_presence [("battery.voltage", "13.2")]).2.2.2 (by decide)⟩

/-- Witness for C9: a simulated fetch failure still closes exactly once
and marks the device unavailable. -/
theorem C9_witness :
    ((getDeviceData ⟨true, true, true, none⟩ ⟨[], none, none⟩).2.count TickEv.close = 1) ∧
    TickEv.setUnavailable ∈ (getDeviceData ⟨true, true, true, none⟩ ⟨[], none, none⟩).2 :=
  ⟨(C9_tick_always_closes ⟨true, true, true, none⟩ ⟨[], none, none⟩).1,
   ((C9_tick_always_closes ⟨true, true, true, none⟩ ⟨[], none, none⟩).2.2.1 (by decide)).1⟩

/-- Witness for C10 at a concrete state with one live capability. -/
theorem C10_witness :
    (setCapabilities (parseUPSStatus []) ⟨["x"], some true, none⟩).threw = true ∧
    (setCapabilities (parseUPSStatus []) ⟨["x"], some true, none⟩).dev.storeFirstRun = some true :=
  ⟨(C10_prune_throws_on_null_known _ _ rfl rfl (by decide)).1, (C10_prune_throws_on_null_known _ _ rfl rfl (by decide)).2.2.1⟩


end SeNut
